import Mathlib

/-
Formal model of the AlpacaTradingBot server core (server/routes.ts,
server/strategies.ts, server/reinforcementLearning/reinforcementLearningStrategy.ts).
The repository ships two revisions of routes.ts in one file; this model follows
the current revision (lines 1-1054), the one the line references below cite.
The model projects the per-user maps onto one user's entries: storage rows,
cache, the activeBots entry, and the set of created-and-not-cleared timers.

Numbers: JavaScript numbers are modelled by exact rationals (ℚ); the claims under
study involve only exact decimal arithmetic.  `Math.sqrt` (irrational) is threaded
through as an explicit function parameter `sqrtFn`.  The DQN model's prediction
(TensorFlow) is threaded through as an explicit `agentPredict` parameter.
Asynchronous storage calls (in-memory MemStorage) are modelled as pure state
updates; broker calls (`getAccount`, `submitOrder`) are modelled by an
environment returning `Except`, where `Except.error` models a thrown rejection.
Side effects (WebSocket broadcasts, broker submit calls, constructed order
requests) are recorded in explicit effect traces.
-/

namespace AlpacaBot

/-- One market observation, as produced by the Alpaca client or the mock
generator (shared/schema MarketData). -/
structure MarketData where
  symbol : String
  price : ℚ
  timestamp : ℕ
  change : ℚ
  changePercent : ℚ
deriving Repr, DecidableEq

/-- The action field of a strategy signal ('buy' | 'sell' | 'hold'). -/
inductive TradeAction where
  | buy
  | sell
  | hold
deriving Repr, DecidableEq

/-- A strategy signal (shared/schema StrategySignal). -/
structure StrategySignal where
  symbol : String
  action : TradeAction
  confidence : ℚ
  timestamp : ℕ
deriving Repr, DecidableEq

/-- An order request sent to the broker (shared/schema OrderRequest); only the
fields the pipeline constructs are modelled. -/
structure OrderRequest where
  symbol : String
  qty : ℚ
  side : TradeAction
  orderType : String
  timeInForce : String
deriving Repr, DecidableEq

/-- The broker's order response, restricted to the fields read by the pipeline. -/
structure OrderResponse where
  symbol : String
  side : TradeAction
  qty : ℚ
  orderType : String
  status : String
deriving Repr, DecidableEq

/-- A persisted position row (shared/schema Position) for the single modelled
user; numeric columns are stored as exact rationals. -/
structure Position where
  id : ℕ
  symbol : String
  qty : ℚ
  entryPrice : ℚ
  currentPrice : ℚ
  marketValue : ℚ
  unrealizedPl : ℚ
  unrealizedPlPerc : ℚ
deriving Repr, DecidableEq

/-- A persisted trade row created by storage.createTrade. -/
structure TradeRecord where
  symbol : String
  side : TradeAction
  qty : ℚ
  price : ℚ
  orderType : String
  status : String
deriving Repr, DecidableEq

/-- The content of a system log message.  Template strings of the source are
modelled structurally: each constructor is one createSystemLog call site of the
modelled code, carrying the data interpolated into the message. -/
inductive LogEvent where
  | rlSignal (symbol : String) (action : TradeAction) (confidence : ℚ) (testMode : Bool)
  | strategySignalDetected (strategyName : String) (action : TradeAction)
      (symbol : String) (confidence : ℚ) (testMode : Bool)
  | orderExecuted (side : TradeAction) (qty : ℚ) (symbol : String)
  | orderFailed (errMsg : String)
  | rlModelInitialized (testMode : Bool)
  | botStarted (strategy : String) (testMode : Bool)
  | botStopped
deriving Repr, DecidableEq

/-- A system log row: level ('SIGNAL' | 'TRADE' | 'ERROR' | 'INFO') plus the
structured message. -/
structure SystemLog where
  level : String
  event : LogEvent
deriving Repr, DecidableEq

/-- Bot settings row (shared/schema BotSettings) for the modelled user. -/
structure BotSettings where
  isActive : Bool
  strategy : String
  riskLevel : ℤ
  tradingFrequency : String
deriving Repr, DecidableEq

/-- Stored Alpaca API key row for the modelled user. -/
structure ApiKey where
  alpacaApiKey : String
  alpacaSecretKey : String
  environment : String
deriving Repr, DecidableEq

/-- Performance metrics row, restricted to the fields touched by the tick
pipeline's test-mode branch. -/
structure PerformanceMetrics where
  portfolioValue : ℚ
  buyingPower : ℚ
  portfolioChange : ℚ
  portfolioChangePerc : ℚ
deriving Repr, DecidableEq

/-- Broker account snapshot (portfolio_value / buying_power as read by the
pipeline). -/
structure Account where
  portfolioValue : ℚ
  buyingPower : ℚ
deriving Repr, DecidableEq

/-- JavaScript String.prototype.startsWith, written over the character list so
that it evaluates by kernel reduction. -/
def strStartsWith (s pre : String) : Bool :=
  pre.data.isPrefixOf s.data

/-- The universal insufficient-data sentinel: a hold signal with confidence 0. -/
def holdSignal (symbol : String) (now : ℕ) : StrategySignal :=
  { symbol := symbol, action := .hold, confidence := 0, timestamp := now }

/-- MeanReversionStrategy.analyze from server/strategies.ts.  JS array indexing
of a possibly-absent element is modelled with getD (the pipeline always passes
a non-empty recent-data list). -/
def meanReversionAnalyze (sqrtFn : ℚ → ℚ) (lookbackPeriod : ℕ)
    (standardDeviations : ℚ) (trendFilter : Bool) (symbol : String)
    (data historicalData : List MarketData) (now : ℕ) : StrategySignal :=
  if historicalData.length < lookbackPeriod then holdSignal symbol now
  else
    let prices := historicalData.map MarketData.price
    let mean := prices.sum / (prices.length : ℚ)
    let variance := (prices.map (fun p => (p - mean) ^ 2)).sum / (prices.length : ℚ)
    let stdDev := sqrtFn variance
    let currentPrice := ((data.getLast?).map MarketData.price).getD 0
    let upperBound := mean + standardDeviations * stdDev
    let lowerBound := mean - standardDeviations * stdDev
    let base : TradeAction × ℚ :=
      if currentPrice < lowerBound then
        (.buy, min |(currentPrice - lowerBound) / (mean - lowerBound)| 1 * 100)
      else if upperBound < currentPrice then
        (.sell, min |(currentPrice - upperBound) / (upperBound - mean)| 1 * 100)
      else (.hold, 0)
    let final : TradeAction × ℚ :=
      if trendFilter ∧ base.fst ≠ .hold then
        let recentPrices := prices.drop (prices.length - 3)
        let isUptrend := (recentPrices[0]?.getD 0) < (recentPrices[2]?.getD 0)
        if (base.fst = .buy ∧ ¬isUptrend) ∨ (base.fst = .sell ∧ isUptrend) then
          (.hold, 0)
        else base
      else base
    { symbol := symbol, action := final.fst, confidence := final.snd, timestamp := now }

/-- MomentumStrategy.analyze from server/strategies.ts. -/
def momentumAnalyze (lookbackPeriod : ℕ) (threshold : ℚ) (symbol : String)
    (data historicalData : List MarketData) (now : ℕ) : StrategySignal :=
  if historicalData.length < lookbackPeriod then holdSignal symbol now
  else
    let currentPrice := ((data.getLast?).map MarketData.price).getD 0
    let pastPrice :=
      ((historicalData[historicalData.length - lookbackPeriod]?).map MarketData.price).getD 0
    let momentumChange := (currentPrice - pastPrice) / pastPrice
    let result : TradeAction × ℚ :=
      if threshold < momentumChange then
        (.buy, min (momentumChange / (threshold * 2)) 1 * 100)
      else if momentumChange < -threshold then
        (.sell, min (|momentumChange| / (threshold * 2)) 1 * 100)
      else (.hold, 0)
    { symbol := symbol, action := result.fst, confidence := result.snd, timestamp := now }

/-- PPOStrategy.calculateEMA from server/strategies.ts: seed with the SMA of the
first period, then fold the exponential update over the remaining prices. -/
def calculateEMA (prices : List ℚ) (period : ℕ) : List ℚ :=
  let multiplier : ℚ := 2 / ((period : ℚ) + 1)
  let firstValue := (prices.take period).sum / (period : ℚ)
  (prices.drop period).foldl
    (fun ema p => ema ++ [(p - ema.getLastD 0) * multiplier + ema.getLastD 0])
    [firstValue]

/-- PPOStrategy.analyze from server/strategies.ts. -/
def ppoAnalyze (fastPeriod slowPeriod signalPeriod : ℕ)
    (buyThreshold sellThreshold : ℚ) (symbol : String)
    (data historicalData : List MarketData) (now : ℕ) : StrategySignal :=
  let requiredDataPoints := max (max fastPeriod slowPeriod) signalPeriod * 2
  if historicalData.length < requiredDataPoints then holdSignal symbol now
  else
    let prices := historicalData.map MarketData.price ++ data.map MarketData.price
    let fastEMA := calculateEMA prices fastPeriod
    let slowEMA := calculateEMA prices slowPeriod
    let ppoLine := List.zipWith (fun f s => (f - s) / s * 100) fastEMA slowEMA
    let signalLine := calculateEMA ppoLine signalPeriod
    let histogram := List.zipWith (fun p s => p - s) ppoLine signalLine
    let lastHistogram := (histogram[histogram.length - 1]?).getD 0
    let prevHistogram := (histogram[histogram.length - 2]?).getD 0
    let result : TradeAction × ℚ :=
      if buyThreshold < lastHistogram ∧ prevHistogram ≤ buyThreshold then
        (.buy, min (lastHistogram / (buyThreshold * 2)) 1 * 100)
      else if lastHistogram < sellThreshold ∧ sellThreshold ≤ prevHistogram then
        (.sell, min (|lastHistogram| / (|sellThreshold| * 2)) 1 * 100)
      else (.hold, 0)
    { symbol := symbol, action := result.fst, confidence := result.snd, timestamp := now }

/-- The simplified ReinforcementLearningStrategy.analyze from
server/strategies.ts (distinct from the DQN strategy below). -/
def simpleRLAnalyze (symbol : String) (data : List MarketData)
    (_historicalData : List MarketData) (now : ℕ) : StrategySignal :=
  if data.length < 2 then holdSignal symbol now
  else
    let lastPrice := ((data[data.length - 1]?).map MarketData.price).getD 0
    let previousPrice := ((data[data.length - 2]?).map MarketData.price).getD 0
    let priceChange := (lastPrice - previousPrice) / previousPrice
    let action :=
      if (1 / 100 : ℚ) < priceChange then TradeAction.buy
      else if priceChange < -(1 / 100) then TradeAction.sell
      else TradeAction.hold
    { symbol := symbol, action := action, confidence := 50, timestamp := now }

/-- A constructed rule-based strategy: its analyze function plus display name. -/
structure Strategy where
  analyze : String → List MarketData → List MarketData → StrategySignal
  name : String

/-- createStrategy from server/strategies.ts: string-keyed factory with the
documented defaults; unknown values fall back to mean reversion. -/
def createStrategy (sqrtFn : ℚ → ℚ) (now : ℕ) (stype : String) : Strategy :=
  if stype == "mean_reversion" then
    ⟨fun s d h => meanReversionAnalyze sqrtFn 14 2 true s d h now, "Mean Reversion"⟩
  else if stype == "momentum" then
    ⟨fun s d h => momentumAnalyze 10 (3 / 100) s d h now, "Momentum"⟩
  else if stype == "ppo" then
    ⟨fun s d h => ppoAnalyze 12 26 9 (1 / 5) (-(1 / 5)) s d h now,
      "PPO (Percentage Price Oscillator)"⟩
  else if stype == "reinforcement" then
    ⟨fun s d h => simpleRLAnalyze s d h now, "Reinforcement Learning"⟩
  else
    ⟨fun s d h => meanReversionAnalyze sqrtFn 14 2 true s d h now, "Mean Reversion"⟩

/-- Association-list update with JavaScript Map.set semantics: replace in place
if the key exists, else append. -/
def assocSet {α : Type} (l : List (String × α)) (k : String) (v : α) :
    List (String × α) :=
  if l.any (fun e => e.fst == k) then
    l.map (fun e => if e.fst == k then (e.fst, v) else e)
  else l ++ [(k, v)]

/-- State of the DQN ReinforcementLearningTradingStrategy instance
(reinforcementLearningStrategy.ts).  The TensorFlow agent, environment and
technical indicators only feed the prediction, which is abstracted by the
`agentPredict` parameter of the functions below; their presence is tracked by
boolean flags. -/
structure RLState where
  symbols : List String
  marketData : List (String × List MarketData)
  lastSignals : List (String × StrategySignal)
  modelLoaded : Bool
  hasAgent : Bool
  hasEnv : Bool
  hasAlpacaClient : Bool
  historicalDataLength : ℕ
  predictionConfidenceThreshold : ℚ
deriving Repr, DecidableEq

/-- The per-symbol market-data buffer of the RL strategy instance. -/
def rlBufferOf (rl : RLState) (symbol : String) : List MarketData :=
  (((rl.marketData.find? (fun e => e.fst == symbol))).map Prod.snd).getD []

/-- ReinforcementLearningTradingStrategy.updateMarketData: push a point onto the
symbol's buffer and truncate to the last historicalDataLength points; symbols
outside the configured list are ignored.  (The indicator recomputation only
feeds the abstracted prediction.) -/
def rlUpdateMarketData (rl : RLState) (symbol : String) (d : MarketData) : RLState :=
  if symbol ∈ rl.symbols then
    let buf := rlBufferOf rl symbol ++ [d]
    let buf :=
      if rl.historicalDataLength < buf.length then
        buf.drop (buf.length - rl.historicalDataLength)
      else buf
    { rl with marketData := assocSet rl.marketData symbol buf }
  else rl

/-- ReinforcementLearningTradingStrategy.actionToSignal: map the model's action
number to a signal, downgrading to hold below the confidence threshold. -/
def actionToSignal (rl : RLState) (symbol : String) (action : ℚ) (now : ℕ) :
    StrategySignal :=
  let base : TradeAction × ℚ :=
    if 0 < action then (.buy, action)
    else if action < 0 then (.sell, |action|)
    else (.hold, 1 / 2)
  let signalAction :=
    if base.snd < rl.predictionConfidenceThreshold then TradeAction.hold else base.fst
  { symbol := symbol, action := signalAction, confidence := base.snd, timestamp := now }

/-- ReinforcementLearningTradingStrategy.generateSignal.  The model prediction
(agent.predict on the state tensor) is abstracted by `agentPredict`, giving the
action number for the requested symbol; everything around it follows the
source, and `Except`-free totality models the try/catch that converts any
internal error into a hold signal. -/
def rlGenerateSignal (rl : RLState) (agentPredict : String → ℚ) (symbol : String)
    (data : List MarketData) (_historicalData : List MarketData) (now : ℕ) :
    StrategySignal × RLState :=
  if ¬rl.modelLoaded ∨ ¬rl.hasAgent ∨ ¬rl.hasEnv ∨ data.length < 30 then
    (holdSignal symbol now, rl)
  else
    match data.getLast? with
    | none => (holdSignal symbol now, rl)
    | some lastPoint =>
        let rl := rlUpdateMarketData rl symbol lastPoint
        if rl.symbols.any (fun s => (rlBufferOf rl s).length < 30) then
          (holdSignal symbol now, rl)
        else
          let action := agentPredict symbol
          let signal := actionToSignal rl symbol action now
          let rl := { rl with lastSignals := assocSet rl.lastSignals symbol signal }
          (signal, rl)

/-- ReinforcementLearningTradingStrategy.signalToOrder: position sizing as
accountValue × 0.1 × confidence / latest price, rounded down to 3 decimals and
dropped entirely when below 0.001 (or when no client / hold / no price). -/
def signalToOrder (rl : RLState) (signal : StrategySignal) (accountValue : ℚ) :
    Option OrderRequest :=
  if signal.action = .hold ∨ ¬rl.hasAlpacaClient then none
  else
    let positionSize := accountValue * (1 / 10) * signal.confidence
    let buf := rlBufferOf rl signal.symbol
    let latestPrice := (buf.getLast?.map MarketData.price).getD 0
    if latestPrice ≤ 0 then none
    else
      let quantity := positionSize / latestPrice
      if quantity < 1 / 1000 then none
      else
        some { symbol := signal.symbol, qty := (⌊quantity * 1000⌋ : ℚ) / 1000,
               side := signal.action, orderType := "market", timeInForce := "gtc" }

/-- One message broadcast to the user's sockets (the broadcastToUser call); the
tagged union of routes.ts, restricted to the types the modelled code emits. -/
inductive BroadcastMsg where
  | marketData (d : MarketData)
  | positionUpdate (p : Position)
  | metricsUpdate (m : PerformanceMetrics)
  | strategySignal (s : StrategySignal)
  | orderUpdate (o : OrderResponse)
  | botStatus (isActive : Bool) (strategy : Option String)
deriving Repr, DecidableEq

/-- A live setInterval handle created by startTradingBot, with its period. -/
structure TimerHandle where
  id : ℕ
  periodMs : ℕ
deriving Repr, DecidableEq

/-- Server state for one user: the persisted store rows, the process-wide
market-data cache, the RL strategy instance state, and the scheduler handles
(activeBots entry plus the set of created-and-not-cleared interval timers). -/
structure ServerState where
  marketDataCache : List (String × MarketData)
  positions : List Position
  trades : List TradeRecord
  logs : List SystemLog
  metrics : Option PerformanceMetrics
  botSettings : Option BotSettings
  apiKey : Option ApiKey
  rl : RLState
  activeBot : Option ℕ
  liveTimers : List TimerHandle
  nextTimerId : ℕ
deriving Repr, DecidableEq

/-- Effects recorded during one handler invocation: broadcastToUser calls,
BrokerGateway.submitOrder invocations, and constructed order requests. -/
structure Effects where
  broadcasts : List BroadcastMsg
  submitOrderCalls : List OrderRequest
  orderRequestsBuilt : List OrderRequest
deriving Repr, DecidableEq

/-- The empty effect trace. -/
def Effects.empty : Effects := ⟨[], [], []⟩

/-- Pointwise concatenation of effect traces. -/
def Effects.append (a b : Effects) : Effects :=
  ⟨a.broadcasts ++ b.broadcasts,
   a.submitOrderCalls ++ b.submitOrderCalls,
   a.orderRequestsBuilt ++ b.orderRequestsBuilt⟩

instance : Append Effects := ⟨Effects.append⟩

/-- The broker environment: outcome of getAccount and of submitOrder for each
request; Except.error models a thrown transport or venue-rejection error. -/
structure BrokerEnv where
  getAccount : Except String Account
  submitOrder : OrderRequest → Except String OrderResponse

/-- An inbound Alpaca websocket message: either a test-mode mock wrapper or a
real message, the latter abstracted by the Option result of
parseAlpacaWebSocketMessage (server/alpaca.ts). -/
inductive AlpacaMessage where
  | mock (data : MarketData)
  | raw (parsed : Option MarketData)

/-- The market data extracted from an inbound message (routes.ts lines 49-59). -/
def parsedMarketData : AlpacaMessage → Option MarketData
  | .mock d => some d
  | .raw p => p

/-- Test-mode detection from the stored API key (routes.ts lines 45-46). -/
def isTestModeOf : Option ApiKey → Bool
  | none => false
  | some k => k.alpacaApiKey == "TEST_KEY" || strStartsWith k.alpacaApiKey "TEST_"

/-- The market-data cache update (Map.set keyed by symbol). -/
def cacheSet (cache : List (String × MarketData)) (md : MarketData) :
    List (String × MarketData) :=
  assocSet cache md.symbol md

/-- The historical window for strategy evaluation (routes.ts lines 131-137):
the cache entries whose key equals the tick's symbol. -/
def historicalDataFor (cache : List (String × MarketData)) (symbol : String) :
    List MarketData :=
  (cache.filter (fun e => e.fst == symbol)).map Prod.snd

/-- The merged position row written by step-3 reconciliation (routes.ts lines
76-81): a partial update of the four price-derived columns. -/
def updatedPositionOf (position : Position) (md : MarketData) : Position :=
  { position with
      currentPrice := md.price
      marketValue := position.qty * md.price
      unrealizedPl := position.qty * (md.price - position.entryPrice)
      unrealizedPlPerc := (md.price - position.entryPrice) / position.entryPrice * 100 }

/-- Append a system log row (storage.createSystemLog). -/
def appendLog (st : ServerState) (level : String) (event : LogEvent) : ServerState :=
  { st with logs := st.logs ++ [⟨level, event⟩] }

/-- The basic order request used for traditional strategies and as the RL
fallback (routes.ts lines 209-226): fixed quantity 1, market, gtc. -/
def basicOrderRequest (signal : StrategySignal) : OrderRequest :=
  { symbol := signal.symbol, qty := 1, side := signal.action,
    orderType := "market", timeInForce := "gtc" }

/-- The trade row created after a successful submit (routes.ts lines 239-247),
built from the order response with price 0 pending fill. -/
def tradeRecordOf (o : OrderResponse) : TradeRecord :=
  { symbol := o.symbol, side := o.side, qty := o.qty, price := 0,
    orderType := o.orderType, status := o.status }

/-- Step 3 of the tick handler (routes.ts lines 71-122): if a persisted
position exists for the tick's symbol, merge the recomputed price columns,
broadcast the updated position, and in test mode recompute portfolio metrics
from the position list fetched before the update (the stale array of the
source) and broadcast them. -/
def reconcileStep (isTestMode : Bool) (md : MarketData) (st : ServerState) :
    ServerState × Effects :=
  let positions := st.positions
  match positions.find? (fun p => p.symbol == md.symbol) with
  | none => (st, Effects.empty)
  | some position =>
      let updated := updatedPositionOf position md
      let st1 := { st with
        positions := st.positions.map (fun q => if q.id == position.id then updated else q) }
      let e1 : Effects := ⟨[.positionUpdate updated], [], []⟩
      if isTestMode then
        match st1.metrics with
        | none => (st1, e1)
        | some metrics =>
            let totalPositionValue := (positions.map Position.marketValue).sum
            let buyingPower := metrics.buyingPower
            let newPortfolioValue := totalPositionValue + buyingPower
            let portfolioChange := newPortfolioValue - 25000
            let portfolioChangePerc := portfolioChange / 25000 * 100
            let updatedMetrics := { metrics with
              portfolioValue := newPortfolioValue
              portfolioChange := portfolioChange
              portfolioChangePerc := portfolioChangePerc }
            ({ st1 with metrics := some updatedMetrics },
             e1 ++ (⟨[.metricsUpdate updatedMetrics], [], []⟩ : Effects))
      else (st1, e1)

/-- Step 4 of the tick handler (routes.ts lines 127-179): evaluate the RL
strategy or the configured rule-based strategy on the tick plus the cache
window, log a SIGNAL entry, and broadcast the signal. -/
def signalStep (sqrtFn : ℚ → ℚ) (now : ℕ) (agentPredict : String → ℚ)
    (isTestMode : Bool) (settings : BotSettings) (md : MarketData)
    (historicalData : List MarketData) (st : ServerState) :
    ServerState × Effects × StrategySignal :=
  if settings.strategy == "reinforcement" then
    let rl := rlUpdateMarketData st.rl md.symbol md
    let res := rlGenerateSignal rl agentPredict md.symbol [md] historicalData now
    let signal := res.fst
    let st1 := { st with rl := res.snd }
    let st2 := appendLog st1 "SIGNAL"
      (.rlSignal signal.symbol signal.action signal.confidence isTestMode)
    (st2, ⟨[.strategySignal signal], [], []⟩, signal)
  else
    let strategy := createStrategy sqrtFn now settings.strategy
    let signal := strategy.analyze md.symbol [md] historicalData
    let st1 := appendLog st "SIGNAL"
      (.strategySignalDetected strategy.name signal.action signal.symbol
        signal.confidence isTestMode)
    (st1, ⟨[.strategySignal signal], [], []⟩, signal)

/-- Step 5 of the tick handler (routes.ts lines 181-263): the confidence gate,
order construction (RL sizing with basic fallback, or basic sizing), the
submitOrder call, and on success the TRADE log + trade row + orderUpdate
broadcast, on rejection the ERROR log.  A thrown getAccount propagates to the
handler's outer catch, which only logs to the console, so the handler stops
with the state reached so far. -/
def orderDecisionStep (env : BrokerEnv) (settings : BotSettings)
    (signal : StrategySignal) (st : ServerState) : ServerState × Effects :=
  if signal.action ≠ TradeAction.hold ∧ 70 < signal.confidence then
    match st.apiKey with
    | none => (st, Effects.empty)
    | some _ =>
        match env.getAccount with
        | .error _ => (st, Effects.empty)
        | .ok account =>
            let accountValue := account.portfolioValue
            let orderRequest : OrderRequest :=
              if settings.strategy == "reinforcement" then
                match signalToOrder st.rl signal accountValue with
                | some rlOrder => rlOrder
                | none => basicOrderRequest signal
              else basicOrderRequest signal
            let eBuilt : Effects := ⟨[], [orderRequest], [orderRequest]⟩
            match env.submitOrder orderRequest with
            | .ok order =>
                let st1 := appendLog st "TRADE"
                  (.orderExecuted order.side order.qty order.symbol)
                let st2 := { st1 with trades := st1.trades ++ [tradeRecordOf order] }
                (st2, eBuilt ++ (⟨[.orderUpdate order], [], []⟩ : Effects))
            | .error e => (appendLog st "ERROR" (.orderFailed e), eBuilt)
  else (st, Effects.empty)

/-- Steps 4-5 of the tick handler for an active bot: strategy evaluation on the
cache window, then the order decision. -/
def tickActiveSteps (env : BrokerEnv) (sqrtFn : ℚ → ℚ) (now : ℕ)
    (agentPredict : String → ℚ) (isTestMode : Bool) (settings : BotSettings)
    (md : MarketData) (st : ServerState) : ServerState × Effects :=
  let historicalData := historicalDataFor st.marketDataCache md.symbol
  let r2 := signalStep sqrtFn now agentPredict isTestMode settings md
    historicalData st
  let r3 := orderDecisionStep env settings r2.snd.snd r2.fst
  (r3.fst, r2.snd.fst ++ r3.snd)

/-- The body of the tick handler once market data has been extracted: cache
update, tick broadcast, position reconciliation, then - when the bot is
active - strategy evaluation and the order decision. -/
def handleParsed (env : BrokerEnv) (sqrtFn : ℚ → ℚ) (now : ℕ)
    (agentPredict : String → ℚ) (isTestMode : Bool) (st : ServerState)
    (md : MarketData) : ServerState × Effects :=
  let st0 := { st with marketDataCache := cacheSet st.marketDataCache md }
  let e0 : Effects := ⟨[.marketData md], [], []⟩
  let r1 := reconcileStep isTestMode md st0
  match r1.fst.botSettings with
  | none => (r1.fst, e0 ++ r1.snd)
  | some settings =>
      if settings.isActive then
        let r4 := tickActiveSteps env sqrtFn now agentPredict isTestMode settings
          md r1.fst
        (r4.fst, e0 ++ r1.snd ++ r4.snd)
      else (r1.fst, e0 ++ r1.snd)

/-- The tick handler handleAlpacaWebsocketMessage (routes.ts lines 41-268). -/
def handleAlpacaWebsocketMessage (env : BrokerEnv) (sqrtFn : ℚ → ℚ) (now : ℕ)
    (agentPredict : String → ℚ) (st : ServerState) (message : AlpacaMessage) :
    ServerState × Effects :=
  match parsedMarketData message with
  | none => (st, Effects.empty)
  | some md => handleParsed env sqrtFn now agentPredict (isTestModeOf st.apiKey) st md

/-- The trading-frequency lookup of startTradingBot (routes.ts lines 342-354):
default 1 minute, low 5 minutes, medium 1 minute, high 10 seconds. -/
def computeUpdateInterval (tradingFrequency : String) : ℕ :=
  if tradingFrequency == "low" then 300000
  else if tradingFrequency == "medium" then 60000
  else if tradingFrequency == "high" then 10000
  else 60000

/-- stopTradingBot (routes.ts lines 447-454): clear the stored interval for the
user, if any, and delete the activeBots entry. -/
def stopTradingBot (st : ServerState) : ServerState :=
  match st.activeBot with
  | some intervalId =>
      { st with
          liveTimers := st.liveTimers.filter (fun t => t.id != intervalId)
          activeBot := none }
  | none => st

/-- startTradingBot (routes.ts lines 271-444): stop any existing bot, then - if
an API key exists and the settings are active - log initialization (the RL
branch, modelled on its non-throwing path, adds its INFO entry), broadcast the
bot status, and install a fresh interval timer with the frequency-derived
period, storing its handle in activeBots. -/
def startTradingBot (st : ServerState) : ServerState × Effects :=
  let st := stopTradingBot st
  match st.apiKey, st.botSettings with
  | some apiKey, some botSettings =>
      if botSettings.isActive then
        let isTestMode :=
          apiKey.alpacaApiKey == "TEST_KEY" || strStartsWith apiKey.alpacaApiKey "TEST_"
        let st :=
          if botSettings.strategy == "reinforcement" then
            appendLog st "INFO" (.rlModelInitialized isTestMode)
          else st
        let st := appendLog st "INFO" (.botStarted botSettings.strategy isTestMode)
        let updateInterval := computeUpdateInterval botSettings.tradingFrequency
        let intervalId := st.nextTimerId
        ({ st with
            liveTimers := st.liveTimers ++ [⟨intervalId, updateInterval⟩]
            nextTimerId := intervalId + 1
            activeBot := some intervalId },
         ⟨[.botStatus true (some botSettings.strategy)], [], []⟩)
      else (st, Effects.empty)
  | _, _ => (st, Effects.empty)

/-- The websocket startBot message handler (routes.ts lines 566-572): when
settings exist, set isActive and start the bot. -/
def handleStartBotMessage (st : ServerState) : ServerState × Effects :=
  match st.botSettings with
  | none => (st, Effects.empty)
  | some botSettings =>
      let st := { st with botSettings := some { botSettings with isActive := true } }
      startTradingBot st

/-- The websocket stopBot message handler (routes.ts lines 573-592): when
settings exist, clear isActive, stop the bot, log, and broadcast the inactive
bot status. -/
def handleStopBotMessage (st : ServerState) : ServerState × Effects :=
  match st.botSettings with
  | none => (st, Effects.empty)
  | some botSettings =>
      let st := { st with botSettings := some { botSettings with isActive := false } }
      let st := stopTradingBot st
      let st := appendLog st "INFO" .botStopped
      (st, ⟨[.botStatus false none], [], []⟩)

/-- The at-most-one-scheduler-handle state invariant: the live timers are
exactly the one tracked in activeBots (none when no bot is active), and every
live timer id is below the allocation counter. -/
def schedulerInvariant (st : ServerState) : Prop :=
  (match st.activeBot with
   | some i => st.liveTimers.map TimerHandle.id = [i]
   | none => st.liveTimers = []) ∧
  ∀ t ∈ st.liveTimers, t.id < st.nextTimerId

/-- Broadcast trace of an appended effect pair. -/
@[simp]
theorem Effects.append_broadcasts (a b : Effects) :
    (a ++ b).broadcasts = a.broadcasts ++ b.broadcasts := rfl

/-- Submit-call trace of an appended effect pair. -/
@[simp]
theorem Effects.append_submitOrderCalls (a b : Effects) :
    (a ++ b).submitOrderCalls = a.submitOrderCalls ++ b.submitOrderCalls := rfl

/-- Built-request trace of an appended effect pair. -/
@[simp]
theorem Effects.append_orderRequestsBuilt (a b : Effects) :
    (a ++ b).orderRequestsBuilt = a.orderRequestsBuilt ++ b.orderRequestsBuilt := rfl

/-- Step 3 never submits orders, never builds order requests, and leaves the
trade list, log list, settings, key, cache and RL state untouched; its
broadcasts contain no strategy signal. -/
theorem reconcileStep_shape (m : Bool) (md : MarketData) (st : ServerState) :
    (reconcileStep m md st).snd.submitOrderCalls = [] ∧
    (reconcileStep m md st).snd.orderRequestsBuilt = [] ∧
    (reconcileStep m md st).fst.trades = st.trades ∧
    (reconcileStep m md st).fst.logs = st.logs ∧
    (reconcileStep m md st).fst.botSettings = st.botSettings ∧
    (reconcileStep m md st).fst.apiKey = st.apiKey ∧
    (reconcileStep m md st).fst.marketDataCache = st.marketDataCache ∧
    (reconcileStep m md st).fst.rl = st.rl ∧
    (∀ s, BroadcastMsg.strategySignal s ∉ (reconcileStep m md st).snd.broadcasts) := by
  rcases hf : List.find? (fun p => p.symbol == md.symbol) st.positions with _ | p
  · simp [reconcileStep, hf, Effects.empty]
  · cases m
    · simp [reconcileStep, hf, Effects.empty]
    · rcases hm : st.metrics with _ | mtr
      · simp [reconcileStep, hf, hm, Effects.empty]
      · simp [reconcileStep, hf, hm, Effects.empty]

/-- Step 3 is skipped entirely when no persisted position matches the tick's
symbol. -/
theorem reconcileStep_no_position (m : Bool) (md : MarketData) (st : ServerState)
    (h : ∀ p ∈ st.positions, p.symbol ≠ md.symbol) :
    reconcileStep m md st = (st, Effects.empty) := by
  have hf : st.positions.find? (fun p => p.symbol == md.symbol) = none := by
    rw [List.find?_eq_none]
    intro p hp
    simpa using h p hp
  simp [reconcileStep, hf]

/-- Step 3 stores exactly the merged row of updatedPositionOf for the found
position, by id. -/
theorem reconcileStep_found (m : Bool) (md : MarketData) (st : ServerState)
    (p : Position) (h : st.positions.find? (fun q => q.symbol == md.symbol) = some p) :
    (reconcileStep m md st).fst.positions =
      st.positions.map (fun q => if q.id == p.id then updatedPositionOf p md else q) := by
  cases m <;> rcases hm : st.metrics with _ | mtr <;> simp [reconcileStep, h, hm]

/-- Step 4 broadcasts exactly the one signal it evaluated, submits nothing,
builds no order request, appends exactly one SIGNAL log row, and leaves trades,
key, positions, cache, metrics and settings untouched. -/
theorem signalStep_shape (sqrtFn : ℚ → ℚ) (now : ℕ) (agentPredict : String → ℚ)
    (m : Bool) (settings : BotSettings) (md : MarketData)
    (hist : List MarketData) (st : ServerState) :
    (signalStep sqrtFn now agentPredict m settings md hist st).snd.fst =
      ⟨[.strategySignal (signalStep sqrtFn now agentPredict m settings md hist st).snd.snd],
        [], []⟩ ∧
    (signalStep sqrtFn now agentPredict m settings md hist st).fst.trades = st.trades ∧
    (signalStep sqrtFn now agentPredict m settings md hist st).fst.apiKey = st.apiKey ∧
    (signalStep sqrtFn now agentPredict m settings md hist st).fst.positions = st.positions ∧
    (signalStep sqrtFn now agentPredict m settings md hist st).fst.marketDataCache =
      st.marketDataCache ∧
    (signalStep sqrtFn now agentPredict m settings md hist st).fst.metrics = st.metrics ∧
    (signalStep sqrtFn now agentPredict m settings md hist st).fst.botSettings =
      st.botSettings ∧
    (∃ ev, (signalStep sqrtFn now agentPredict m settings md hist st).fst.logs =
      st.logs ++ [⟨"SIGNAL", ev⟩]) := by
  by_cases hs : (settings.strategy == "reinforcement") = true
  · simp [signalStep, hs, appendLog]
  · simp [signalStep, hs, appendLog]

/-- When the configured strategy is the default mean reversion and the
historical window is shorter than the 14-point lookback, step 4 evaluates to
the hold/0 sentinel. -/
theorem signalStep_meanReversion_insufficient (sqrtFn : ℚ → ℚ) (now : ℕ)
    (agentPredict : String → ℚ) (m : Bool) (settings : BotSettings)
    (md : MarketData) (hist : List MarketData) (st : ServerState)
    (hs : settings.strategy = "mean_reversion") (hl : hist.length < 14) :
    (signalStep sqrtFn now agentPredict m settings md hist st).snd.snd =
      holdSignal md.symbol now := by
  simp [signalStep, hs, createStrategy, meanReversionAnalyze, hl]

/-- The confidence gate of step 5: a hold or low-confidence signal produces no
state change and no effects at all. -/
theorem orderDecisionStep_gate_closed (env : BrokerEnv) (settings : BotSettings)
    (signal : StrategySignal) (st : ServerState)
    (h : signal.action = TradeAction.hold ∨ signal.confidence ≤ 70) :
    orderDecisionStep env settings signal st = (st, Effects.empty) := by
  unfold orderDecisionStep
  rw [if_neg]
  rcases h with h | h
  · exact fun hc => hc.1 h
  · exact fun hc => absurd hc.2 (not_lt.mpr h)

/-- Step 5 with no stored API key is a silent no-op. -/
theorem orderDecisionStep_no_key (env : BrokerEnv) (settings : BotSettings)
    (signal : StrategySignal) (st : ServerState) (h : st.apiKey = none) :
    orderDecisionStep env settings signal st = (st, Effects.empty) := by
  unfold orderDecisionStep
  split
  · rw [h]
  · rfl

/-- Step 5 submits every order request it builds and builds at most one; it
never touches positions, cache, metrics, key, settings or RL state, only
appends to logs and trades, and broadcasts no strategy signal. -/
theorem orderDecisionStep_shape (env : BrokerEnv) (settings : BotSettings)
    (signal : StrategySignal) (st : ServerState) :
    (orderDecisionStep env settings signal st).snd.submitOrderCalls =
      (orderDecisionStep env settings signal st).snd.orderRequestsBuilt ∧
    (orderDecisionStep env settings signal st).snd.submitOrderCalls.length ≤ 1 ∧
    (orderDecisionStep env settings signal st).fst.positions = st.positions ∧
    (orderDecisionStep env settings signal st).fst.marketDataCache = st.marketDataCache ∧
    (orderDecisionStep env settings signal st).fst.metrics = st.metrics ∧
    (orderDecisionStep env settings signal st).fst.apiKey = st.apiKey ∧
    (orderDecisionStep env settings signal st).fst.botSettings = st.botSettings ∧
    (orderDecisionStep env settings signal st).fst.rl = st.rl ∧
    (∃ δ, (orderDecisionStep env settings signal st).fst.logs = st.logs ++ δ) ∧
    (∃ δ, (orderDecisionStep env settings signal st).fst.trades = st.trades ++ δ) ∧
    (∀ s, BroadcastMsg.strategySignal s ∉
      (orderDecisionStep env settings signal st).snd.broadcasts) := by
  unfold orderDecisionStep
  repeat' split <;> try simp [Effects.empty, appendLog]

/-- Full case analysis of step 5: either it is a silent no-op, or the gate was
open and exactly one request was built and submitted, succeeding (TRADE log,
trade row, orderUpdate broadcast) or failing (ERROR log only). -/
theorem orderDecisionStep_cases (env : BrokerEnv) (settings : BotSettings)
    (signal : StrategySignal) (st : ServerState) :
    orderDecisionStep env settings signal st = (st, Effects.empty) ∨
    (signal.action ≠ TradeAction.hold ∧ 70 < signal.confidence ∧ ∃ r,
      ((∃ o, env.submitOrder r = .ok o ∧
         orderDecisionStep env settings signal st =
           ({ appendLog st "TRADE" (.orderExecuted o.side o.qty o.symbol) with
               trades := st.trades ++ [tradeRecordOf o] },
            ⟨[.orderUpdate o], [r], [r]⟩)) ∨
       (∃ e, env.submitOrder r = .error e ∧
         orderDecisionStep env settings signal st =
           (appendLog st "ERROR" (.orderFailed e), ⟨[], [r], [r]⟩)))) := by
  simp only [orderDecisionStep]
  split
  next hgate =>
    split
    · exact Or.inl rfl
    next _k =>
      split
      next => exact Or.inl rfl
      next account heq_acc =>
        split
        next order heq =>
          refine Or.inr ⟨hgate.1, hgate.2, _, Or.inl ⟨order, heq, ?_⟩⟩
          rfl
        next e heq =>
          exact Or.inr ⟨hgate.1, hgate.2, _, Or.inr ⟨e, heq, rfl⟩⟩
  next => exact Or.inl rfl

/-- Steps 4-5 decompose into the signal broadcast followed by the order
decision on the post-signal state. -/
theorem tickActiveSteps_eq (env : BrokerEnv) (sqrtFn : ℚ → ℚ) (now : ℕ)
    (agentPredict : String → ℚ) (m : Bool) (settings : BotSettings)
    (md : MarketData) (st : ServerState) :
    tickActiveSteps env sqrtFn now agentPredict m settings md st =
      ((orderDecisionStep env settings
          (signalStep sqrtFn now agentPredict m settings md
            (historicalDataFor st.marketDataCache md.symbol) st).snd.snd
          (signalStep sqrtFn now agentPredict m settings md
            (historicalDataFor st.marketDataCache md.symbol) st).fst).fst,
        (⟨[.strategySignal (signalStep sqrtFn now agentPredict m settings md
            (historicalDataFor st.marketDataCache md.symbol) st).snd.snd],
          [], []⟩ : Effects) ++
        (orderDecisionStep env settings
          (signalStep sqrtFn now agentPredict m settings md
            (historicalDataFor st.marketDataCache md.symbol) st).snd.snd
          (signalStep sqrtFn now agentPredict m settings md
            (historicalDataFor st.marketDataCache md.symbol) st).fst).snd) := by
  simp only [tickActiveSteps]
  rw [(signalStep_shape sqrtFn now agentPredict m settings md
    (historicalDataFor st.marketDataCache md.symbol) st).1]


/-- Case analysis of the parsed-tick body: inactive (or missing) settings stop
after reconciliation; active settings continue with steps 4-5. -/
theorem handleParsed_cases (env : BrokerEnv) (sqrtFn : ℚ → ℚ) (now : ℕ)
    (agentPredict : String → ℚ) (m : Bool) (st : ServerState) (md : MarketData) :
    ((st.botSettings = none ∨ (∃ s, st.botSettings = some s ∧ s.isActive = false)) ∧
      handleParsed env sqrtFn now agentPredict m st md =
        ((reconcileStep m md { st with marketDataCache := cacheSet st.marketDataCache md }).fst,
         (⟨[.marketData md], [], []⟩ : Effects) ++
           (reconcileStep m md { st with marketDataCache := cacheSet st.marketDataCache md }).snd)) ∨
    (∃ settings, st.botSettings = some settings ∧ settings.isActive = true ∧
      handleParsed env sqrtFn now agentPredict m st md =
        ((tickActiveSteps env sqrtFn now agentPredict m settings md
            (reconcileStep m md { st with marketDataCache := cacheSet st.marketDataCache md }).fst).fst,
         (⟨[.marketData md], [], []⟩ : Effects) ++
           (reconcileStep m md { st with marketDataCache := cacheSet st.marketDataCache md }).snd ++
           (tickActiveSteps env sqrtFn now agentPredict m settings md
             (reconcileStep m md { st with marketDataCache := cacheSet st.marketDataCache md }).fst).snd)) := by
  have hbs : (reconcileStep m md
      { st with marketDataCache := cacheSet st.marketDataCache md }).fst.botSettings =
      st.botSettings :=
    (reconcileStep_shape m md _).2.2.2.2.1
  simp only [handleParsed]
  split
  next h => exact Or.inl ⟨Or.inl (hbs.symm.trans h), rfl⟩
  next settings h =>
    split
    next hact => exact Or.inr ⟨settings, hbs.symm.trans h, hact, rfl⟩
    next hact =>
      exact Or.inl ⟨Or.inr ⟨settings, hbs.symm.trans h, by simpa using hact⟩, rfl⟩

def c1Tick : MarketData := ⟨"BTCUSD", 100, 0, 0, 0⟩

def c1State : ServerState :=
  { marketDataCache := [], positions := [], trades := [], logs := [],
    metrics := none,
    botSettings := some ⟨true, "mean_reversion", 5, "medium"⟩,
    apiKey := none,
    rl := ⟨[], [], [], false, false, false, false, 100, 3 / 10⟩,
    activeBot := none, liveTimers := [], nextTimerId := 0 }

def c1Env : BrokerEnv := ⟨Except.error "down", fun _ => Except.error "down"⟩

/-- C1: every tick evaluation calls BrokerGateway.submitOrder at most once,
submits exactly the requests it constructs, and for an evaluated signal with
action hold or confidence at most 70 makes no submitOrder call and constructs
no order request. -/
theorem spec_c1 (env : BrokerEnv) (sqrtFn : ℚ → ℚ) (now : ℕ)
    (agentPredict : String → ℚ) (st : ServerState) (message : AlpacaMessage) :
    (handleAlpacaWebsocketMessage env sqrtFn now agentPredict st message).snd.submitOrderCalls.length ≤ 1 ∧
    (handleAlpacaWebsocketMessage env sqrtFn now agentPredict st message).snd.submitOrderCalls =
      (handleAlpacaWebsocketMessage env sqrtFn now agentPredict st message).snd.orderRequestsBuilt ∧
    (∀ sig, BroadcastMsg.strategySignal sig ∈
        (handleAlpacaWebsocketMessage env sqrtFn now agentPredict st message).snd.broadcasts →
      sig.action = TradeAction.hold ∨ sig.confidence ≤ 70 →
      (handleAlpacaWebsocketMessage env sqrtFn now agentPredict st message).snd.submitOrderCalls = [] ∧
      (handleAlpacaWebsocketMessage env sqrtFn now agentPredict st message).snd.orderRequestsBuilt = []) := by
  cases hm : parsedMarketData message with
  | none => simp [handleAlpacaWebsocketMessage, hm, Effects.empty]
  | some md =>
    simp only [handleAlpacaWebsocketMessage, hm]
    rcases handleParsed_cases env sqrtFn now agentPredict (isTestModeOf st.apiKey) st md with
      ⟨_, heq⟩ | ⟨settings, _, _, heq⟩
    · rw [heq]
      obtain ⟨h1, h2, _, _, _, _, _, _, h9⟩ :=
        reconcileStep_shape (isTestModeOf st.apiKey) md
          { st with marketDataCache := cacheSet st.marketDataCache md }
      refine ⟨by simp [h1], by simp [h1, h2], ?_⟩
      intro sig hmem _
      exfalso
      simp only [Effects.append_broadcasts, List.mem_append] at hmem
      rcases hmem with h | h
      · simp at h
      · exact h9 sig h
    · rw [heq, tickActiveSteps_eq]
      set R := reconcileStep (isTestModeOf st.apiKey) md
        { st with marketDataCache := cacheSet st.marketDataCache md } with hR
      set S := signalStep sqrtFn now agentPredict (isTestModeOf st.apiKey) settings md
        (historicalDataFor R.fst.marketDataCache md.symbol) R.fst with hS
      set OD := orderDecisionStep env settings S.snd.snd S.fst with hOD
      obtain ⟨r1a, r1b, _, _, _, _, _, _, r1no⟩ :=
        reconcileStep_shape (isTestModeOf st.apiKey) md
          { st with marketDataCache := cacheSet st.marketDataCache md }
      obtain ⟨o1, o2, _, _, _, _, _, _, _, _, ono⟩ :=
        orderDecisionStep_shape env settings S.snd.snd S.fst
      rw [← hR] at r1a r1b r1no
      rw [← hOD] at o1 o2 ono
      refine ⟨by simp [r1a, o2], by simp [r1a, r1b, o1], ?_⟩
      intro sig hmem hgate
      have hsig : sig = S.snd.snd := by
        simp only [Effects.append_broadcasts, List.mem_append] at hmem
        rcases hmem with (h | h) | h | h
        · simp at h
        · exact absurd h (r1no sig)
        · simpa using h
        · exact absurd h (ono sig)
      have hclosed : OD = (S.fst, Effects.empty) := by
        rw [hOD]
        exact orderDecisionStep_gate_closed env settings S.snd.snd S.fst (hsig ▸ hgate)
      constructor
      · simp [r1a, hclosed, Effects.empty]
      · simp [r1b, hclosed, Effects.empty]

/-- C1 witness: on a concrete active-bot state the hold/0 signal is broadcast
and no submitOrder call or order request results. -/
theorem spec_c1_witness :
    BroadcastMsg.strategySignal (holdSignal "BTCUSD" 0) ∈
      (handleAlpacaWebsocketMessage c1Env (fun _ => 0) 0 (fun _ => 0) c1State
        (.mock c1Tick)).snd.broadcasts ∧
    (handleAlpacaWebsocketMessage c1Env (fun _ => 0) 0 (fun _ => 0) c1State
      (.mock c1Tick)).snd.submitOrderCalls = [] ∧
    (handleAlpacaWebsocketMessage c1Env (fun _ => 0) 0 (fun _ => 0) c1State
      (.mock c1Tick)).snd.orderRequestsBuilt = [] := by
  have hmem : BroadcastMsg.strategySignal (holdSignal "BTCUSD" 0) ∈
      (handleAlpacaWebsocketMessage c1Env (fun _ => 0) 0 (fun _ => 0) c1State
        (.mock c1Tick)).snd.broadcasts := by
    decide
  have h := (spec_c1 c1Env (fun _ => 0) 0 (fun _ => 0) c1State (.mock c1Tick)).2.2
    (holdSignal "BTCUSD" 0) hmem (Or.inl rfl)
  exact ⟨hmem, h.1, h.2⟩


/-- C2: in the order-decision step, a thrown submitOrder leads to an appended
ERROR log, no trade row, exactly one submit call (no retry), and no change to
the previously written positions, cache or metrics; a trade row appears only
after a successful submit, recording the acknowledged order. -/
theorem spec_c2 :
    (∀ (env : BrokerEnv) (settings : BotSettings) (signal : StrategySignal)
        (st : ServerState) (r : OrderRequest) (e : String),
      r ∈ (orderDecisionStep env settings signal st).snd.submitOrderCalls →
      env.submitOrder r = .error e →
      (orderDecisionStep env settings signal st).fst.trades = st.trades ∧
      (orderDecisionStep env settings signal st).snd.submitOrderCalls = [r] ∧
      (orderDecisionStep env settings signal st).fst.logs =
        st.logs ++ [⟨"ERROR", .orderFailed e⟩] ∧
      (orderDecisionStep env settings signal st).fst.positions = st.positions ∧
      (orderDecisionStep env settings signal st).fst.marketDataCache = st.marketDataCache ∧
      (orderDecisionStep env settings signal st).fst.metrics = st.metrics) ∧
    (∀ (env : BrokerEnv) (settings : BotSettings) (signal : StrategySignal)
        (st : ServerState),
      (orderDecisionStep env settings signal st).fst.trades ≠ st.trades →
      ∃ r o, (orderDecisionStep env settings signal st).snd.submitOrderCalls = [r] ∧
        env.submitOrder r = .ok o ∧
        (orderDecisionStep env settings signal st).fst.trades =
          st.trades ++ [tradeRecordOf o]) := by
  constructor
  · intro env settings signal st r e hr he
    rcases orderDecisionStep_cases env settings signal st with
      hod | ⟨_, _, r0, ⟨o, hok, hod⟩ | ⟨e2, herr, hod⟩⟩
    · rw [hod] at hr
      simp [Effects.empty] at hr
    · rw [hod] at hr
      simp at hr
      subst hr
      rw [hok] at he
      exact absurd he (by simp)
    · rw [hod] at hr
      simp at hr
      subst hr
      rw [herr] at he
      have he2 : e2 = e := by injection he
      subst he2
      rw [hod]
      exact ⟨rfl, rfl, rfl, rfl, rfl, rfl⟩
  · intro env settings signal st hne
    rcases orderDecisionStep_cases env settings signal st with
      hod | ⟨_, _, r0, ⟨o, hok, hod⟩ | ⟨e2, herr, hod⟩⟩
    · exact absurd (by rw [hod]) hne
    · exact ⟨r0, o, by rw [hod], hok, by rw [hod]⟩
    · exact absurd (by rw [hod]; rfl) hne

def c2Signal : StrategySignal := ⟨"ETHUSD", .buy, 85, 0⟩

def c2State : ServerState :=
  { marketDataCache := [], positions := [], trades := [], logs := [],
    metrics := none,
    botSettings := some ⟨true, "momentum", 5, "medium"⟩,
    apiKey := some ⟨"KEY", "SECRET", "paper"⟩,
    rl := ⟨[], [], [], false, false, false, false, 100, 3 / 10⟩,
    activeBot := none, liveTimers := [], nextTimerId := 0 }

def c2Env : BrokerEnv :=
  ⟨Except.ok ⟨10000, 10000⟩, fun _ => Except.error "insufficient funds"⟩

/-- C2 witness: a concrete buy/85 signal against a rejecting broker yields the
ERROR log, the single submit call, and no trade row. -/
theorem spec_c2_witness :
    (orderDecisionStep c2Env ⟨true, "momentum", 5, "medium"⟩ c2Signal c2State).fst.trades =
      c2State.trades ∧
    (orderDecisionStep c2Env ⟨true, "momentum", 5, "medium"⟩ c2Signal c2State).snd.submitOrderCalls =
      [basicOrderRequest c2Signal] ∧
    (orderDecisionStep c2Env ⟨true, "momentum", 5, "medium"⟩ c2Signal c2State).fst.logs =
      c2State.logs ++ [⟨"ERROR", .orderFailed "insufficient funds"⟩] := by
  have hr : basicOrderRequest c2Signal ∈
      (orderDecisionStep c2Env ⟨true, "momentum", 5, "medium"⟩ c2Signal c2State).snd.submitOrderCalls := by
    decide
  have h := spec_c2.1 c2Env ⟨true, "momentum", 5, "medium"⟩ c2Signal c2State
    (basicOrderRequest c2Signal) "insufficient funds" hr (by rfl)
  exact ⟨h.1, h.2.1, h.2.2.1⟩


/-- C9: with no stored API key the order-decision step is skipped silently:
no submit call, no constructed request, no trade row, and every log row
appended by the tick is the SIGNAL entry of step 4 (no log of any level for
the skipped order). -/
theorem spec_c9 (env : BrokerEnv) (sqrtFn : ℚ → ℚ) (now : ℕ)
    (agentPredict : String → ℚ) (st : ServerState) (message : AlpacaMessage)
    (hk : st.apiKey = none) :
    (handleAlpacaWebsocketMessage env sqrtFn now agentPredict st message).snd.submitOrderCalls = [] ∧
    (handleAlpacaWebsocketMessage env sqrtFn now agentPredict st message).snd.orderRequestsBuilt = [] ∧
    (handleAlpacaWebsocketMessage env sqrtFn now agentPredict st message).fst.trades = st.trades ∧
    (∃ δ, (handleAlpacaWebsocketMessage env sqrtFn now agentPredict st message).fst.logs =
      st.logs ++ δ ∧ ∀ l ∈ δ, l.level = "SIGNAL") := by
  cases hm : parsedMarketData message with
  | none =>
    refine ⟨by simp [handleAlpacaWebsocketMessage, hm, Effects.empty],
      by simp [handleAlpacaWebsocketMessage, hm, Effects.empty],
      by simp [handleAlpacaWebsocketMessage, hm], [], ?_, by simp⟩
    simp [handleAlpacaWebsocketMessage, hm]
  | some md =>
    simp only [handleAlpacaWebsocketMessage, hm]
    obtain ⟨r1a, r1b, r1t, r1l, _, r1k, _, _, _⟩ :=
      reconcileStep_shape (isTestModeOf st.apiKey) md
        { st with marketDataCache := cacheSet st.marketDataCache md }
    rcases handleParsed_cases env sqrtFn now agentPredict (isTestModeOf st.apiKey) st md with
      ⟨_, heq⟩ | ⟨settings, _, _, heq⟩
    · rw [heq]
      refine ⟨by simp [r1a], by simp [r1b], r1t, [], by simp [r1l], by simp⟩
    · rw [heq, tickActiveSteps_eq]
      set R := reconcileStep (isTestModeOf st.apiKey) md
        { st with marketDataCache := cacheSet st.marketDataCache md } with hR
      set S := signalStep sqrtFn now agentPredict (isTestModeOf st.apiKey) settings md
        (historicalDataFor R.fst.marketDataCache md.symbol) R.fst with hS
      obtain ⟨_, sT, sK, _, _, _, _, sL⟩ :=
        signalStep_shape sqrtFn now agentPredict (isTestModeOf st.apiKey) settings md
          (historicalDataFor R.fst.marketDataCache md.symbol) R.fst
      obtain ⟨ev, hev⟩ := sL
      have hSk : S.fst.apiKey = none := by rw [sK, r1k]; exact hk
      have hod := orderDecisionStep_no_key env settings S.snd.snd S.fst hSk
      rw [hod]
      refine ⟨by simp [r1a, Effects.empty], by simp [r1b, Effects.empty], ?_, ?_⟩
      · show S.fst.trades = st.trades
        rw [sT, r1t]
      · refine ⟨[⟨"SIGNAL", ev⟩], ?_, by simp⟩
        show S.fst.logs = st.logs ++ [⟨"SIGNAL", ev⟩]
        rw [hev, r1l]


/-- Step 5 broadcasts no position update. -/
theorem orderDecisionStep_no_positionUpdate (env : BrokerEnv) (settings : BotSettings)
    (signal : StrategySignal) (st : ServerState) :
    ∀ p, BroadcastMsg.positionUpdate p ∉
      (orderDecisionStep env settings signal st).snd.broadcasts := by
  rcases orderDecisionStep_cases env settings signal st with
    hod | ⟨_, _, r0, ⟨o, _, hod⟩ | ⟨e, _, hod⟩⟩ <;> rw [hod] <;> simp [Effects.empty]

/-- C5: a tick whose symbol has no persisted position leaves the position
store and metrics unchanged, broadcasts no positionUpdate, and still performs
the cache update. -/
theorem spec_c5 (env : BrokerEnv) (sqrtFn : ℚ → ℚ) (now : ℕ)
    (agentPredict : String → ℚ) (st : ServerState) (message : AlpacaMessage)
    (md : MarketData) (hm : parsedMarketData message = some md)
    (hp : ∀ p ∈ st.positions, p.symbol ≠ md.symbol) :
    (handleAlpacaWebsocketMessage env sqrtFn now agentPredict st message).fst.positions =
      st.positions ∧
    (handleAlpacaWebsocketMessage env sqrtFn now agentPredict st message).fst.metrics =
      st.metrics ∧
    (∀ p, BroadcastMsg.positionUpdate p ∉
      (handleAlpacaWebsocketMessage env sqrtFn now agentPredict st message).snd.broadcasts) ∧
    (handleAlpacaWebsocketMessage env sqrtFn now agentPredict st message).fst.marketDataCache =
      cacheSet st.marketDataCache md := by
  simp only [handleAlpacaWebsocketMessage, hm]
  have hnp : reconcileStep (isTestModeOf st.apiKey) md
      { st with marketDataCache := cacheSet st.marketDataCache md } =
      ({ st with marketDataCache := cacheSet st.marketDataCache md }, Effects.empty) :=
    reconcileStep_no_position _ md _ hp
  rcases handleParsed_cases env sqrtFn now agentPredict (isTestModeOf st.apiKey) st md with
    ⟨_, heq⟩ | ⟨settings, _, _, heq⟩
  · rw [heq, hnp]
    exact ⟨rfl, rfl, by simp [Effects.empty], rfl⟩
  · rw [heq, tickActiveSteps_eq]
    set R := reconcileStep (isTestModeOf st.apiKey) md
      { st with marketDataCache := cacheSet st.marketDataCache md } with hR
    set S := signalStep sqrtFn now agentPredict (isTestModeOf st.apiKey) settings md
      (historicalDataFor R.fst.marketDataCache md.symbol) R.fst with hS
    set OD := orderDecisionStep env settings S.snd.snd S.fst with hOD
    obtain ⟨_, _, _, sP, _, sM, _, _⟩ :=
      signalStep_shape sqrtFn now agentPredict (isTestModeOf st.apiKey) settings md
        (historicalDataFor R.fst.marketDataCache md.symbol) R.fst
    obtain ⟨_, _, oP, oC, oM, _⟩ := orderDecisionStep_shape env settings S.snd.snd S.fst
    have hno := orderDecisionStep_no_positionUpdate env settings S.snd.snd S.fst
    rw [← hOD] at oP oC oM hno
    rw [← hS] at sP sM
    refine ⟨?_, ?_, ?_, ?_⟩
    · show OD.fst.positions = st.positions
      rw [oP, sP, hnp]
    · show OD.fst.metrics = st.metrics
      rw [oM, sM, hnp]
    · intro p hmem
      simp only [Effects.append_broadcasts, List.mem_append] at hmem
      rcases hmem with (h | h) | h | h
      · simp at h
      · rw [hnp] at h
        simp [Effects.empty] at h
      · simp at h
      · exact hno p h
    · show OD.fst.marketDataCache = cacheSet st.marketDataCache md
      rw [oC]
      obtain ⟨_, _, _, _, sC, _⟩ :=
        signalStep_shape sqrtFn now agentPredict (isTestModeOf st.apiKey) settings md
          (historicalDataFor R.fst.marketDataCache md.symbol) R.fst
      rw [← hS] at sC
      rw [sC, hnp]

def c9Tick : MarketData := ⟨"BTCUSD", 100, 0, 0, 0⟩

def c9State : ServerState :=
  { marketDataCache := [], positions := [], trades := [], logs := [],
    metrics := none,
    botSettings := some ⟨true, "momentum", 5, "high"⟩,
    apiKey := none,
    rl := ⟨[], [], [], false, false, false, false, 100, 3 / 10⟩,
    activeBot := none, liveTimers := [], nextTimerId := 0 }

def c9Env : BrokerEnv := ⟨Except.ok ⟨10000, 10000⟩, fun _ => Except.error "down"⟩

/-- C9 witness: the missing-key state yields no submit call and no trade row. -/
theorem spec_c9_witness :
    (handleAlpacaWebsocketMessage c9Env (fun _ => 0) 0 (fun _ => 0) c9State
      (.mock c9Tick)).snd.submitOrderCalls = [] ∧
    (handleAlpacaWebsocketMessage c9Env (fun _ => 0) 0 (fun _ => 0) c9State
      (.mock c9Tick)).fst.trades = c9State.trades := by
  have h := spec_c9 c9Env (fun _ => 0) 0 (fun _ => 0) c9State (.mock c9Tick) rfl
  exact ⟨h.1, h.2.2.1⟩

def c5Tick : MarketData := ⟨"BTCUSD", 100, 0, 0, 0⟩

def c5State : ServerState :=
  { marketDataCache := [], positions := [⟨1, "ETHUSD", 2, 100, 100, 200, 0, 0⟩],
    trades := [], logs := [], metrics := none,
    botSettings := none, apiKey := none,
    rl := ⟨[], [], [], false, false, false, false, 100, 3 / 10⟩,
    activeBot := none, liveTimers := [], nextTimerId := 0 }

def c5Env : BrokerEnv := ⟨Except.ok ⟨10000, 10000⟩, fun _ => Except.error "down"⟩

/-- C5 witness: a BTCUSD tick against a store holding only an ETHUSD position
leaves positions and metrics untouched. -/
theorem spec_c5_witness :
    (handleAlpacaWebsocketMessage c5Env (fun _ => 0) 0 (fun _ => 0) c5State
      (.mock c5Tick)).fst.positions = c5State.positions ∧
    (handleAlpacaWebsocketMessage c5Env (fun _ => 0) 0 (fun _ => 0) c5State
      (.mock c5Tick)).fst.metrics = c5State.metrics := by
  have h := spec_c5 c5Env (fun _ => 0) 0 (fun _ => 0) c5State (.mock c5Tick) c5Tick rfl
    (by decide)
  exact ⟨h.1, h.2.1⟩


/-- C7: every strategy entry point returns the hold/0 sentinel, not an error,
when given fewer data points than its lookback requirement (mean reversion and
momentum on the historical window vs their lookback, PPO vs twice its largest
period, the simplified RL analyze on fewer than 2 recent points, and the DQN
generateSignal on fewer than 30 recent points); totality of these Lean
functions is the no-throw property. -/
theorem spec_c7 :
    (∀ (sqrtFn : ℚ → ℚ) (lookbackPeriod : ℕ) (standardDeviations : ℚ)
        (trendFilter : Bool) (symbol : String) (data historicalData : List MarketData)
        (now : ℕ), historicalData.length < lookbackPeriod →
      meanReversionAnalyze sqrtFn lookbackPeriod standardDeviations trendFilter symbol
        data historicalData now = holdSignal symbol now) ∧
    (∀ (lookbackPeriod : ℕ) (threshold : ℚ) (symbol : String)
        (data historicalData : List MarketData) (now : ℕ),
      historicalData.length < lookbackPeriod →
      momentumAnalyze lookbackPeriod threshold symbol data historicalData now =
        holdSignal symbol now) ∧
    (∀ (fastPeriod slowPeriod signalPeriod : ℕ) (buyThreshold sellThreshold : ℚ)
        (symbol : String) (data historicalData : List MarketData) (now : ℕ),
      historicalData.length < max (max fastPeriod slowPeriod) signalPeriod * 2 →
      ppoAnalyze fastPeriod slowPeriod signalPeriod buyThreshold sellThreshold symbol
        data historicalData now = holdSignal symbol now) ∧
    (∀ (symbol : String) (data historicalData : List MarketData) (now : ℕ),
      data.length < 2 →
      simpleRLAnalyze symbol data historicalData now = holdSignal symbol now) ∧
    (∀ (rl : RLState) (agentPredict : String → ℚ) (symbol : String)
        (data historicalData : List MarketData) (now : ℕ), data.length < 30 →
      rlGenerateSignal rl agentPredict symbol data historicalData now =
        (holdSignal symbol now, rl)) := by
  refine ⟨?_, ?_, ?_, ?_, ?_⟩
  · intro sqrtFn lookbackPeriod standardDeviations trendFilter symbol data historicalData now h
    simp [meanReversionAnalyze, h]
  · intro lookbackPeriod threshold symbol data historicalData now h
    simp [momentumAnalyze, h]
  · intro fastPeriod slowPeriod signalPeriod buyThreshold sellThreshold symbol data
      historicalData now h
    simp [ppoAnalyze, h]
  · intro symbol data historicalData now h
    simp [simpleRLAnalyze, h]
  · intro rl agentPredict symbol data historicalData now h
    simp [rlGenerateSignal, h]

/-- C7 witness: each entry point evaluated on concretely insufficient data. -/
theorem spec_c7_witness :
    meanReversionAnalyze (fun _ => 0) 14 2 true "BTCUSD" [] [] 0 = holdSignal "BTCUSD" 0 ∧
    momentumAnalyze 10 (3 / 100) "BTCUSD" [] [] 0 = holdSignal "BTCUSD" 0 ∧
    ppoAnalyze 12 26 9 (1 / 5) (-(1 / 5)) "BTCUSD" [] [] 0 = holdSignal "BTCUSD" 0 ∧
    simpleRLAnalyze "BTCUSD" [] [] 0 = holdSignal "BTCUSD" 0 ∧
    rlGenerateSignal ⟨["BTCUSD"], [], [], true, true, true, true, 100, 3 / 10⟩ (fun _ => 1)
      "BTCUSD" [] [] 0 =
      (holdSignal "BTCUSD" 0, ⟨["BTCUSD"], [], [], true, true, true, true, 100, 3 / 10⟩) :=
  ⟨spec_c7.1 (fun _ => 0) 14 2 true "BTCUSD" [] [] 0 (by decide),
   spec_c7.2.1 10 (3 / 100) "BTCUSD" [] [] 0 (by decide),
   spec_c7.2.2.1 12 26 9 (1 / 5) (-(1 / 5)) "BTCUSD" [] [] 0 (by decide),
   spec_c7.2.2.2.1 "BTCUSD" [] [] 0 (by decide),
   spec_c7.2.2.2.2 ⟨["BTCUSD"], [], [], true, true, true, true, 100, 3 / 10⟩ (fun _ => 1)
     "BTCUSD" [] [] 0 (by decide)⟩


/-- appendLog only touches the log list. -/
@[simp]
theorem appendLog_liveTimers (st : ServerState) (l : String) (e : LogEvent) :
    (appendLog st l e).liveTimers = st.liveTimers := rfl

@[simp]
theorem appendLog_activeBot (st : ServerState) (l : String) (e : LogEvent) :
    (appendLog st l e).activeBot = st.activeBot := rfl

@[simp]
theorem appendLog_nextTimerId (st : ServerState) (l : String) (e : LogEvent) :
    (appendLog st l e).nextTimerId = st.nextTimerId := rfl

@[simp]
theorem appendLog_apiKey (st : ServerState) (l : String) (e : LogEvent) :
    (appendLog st l e).apiKey = st.apiKey := rfl

@[simp]
theorem appendLog_botSettings (st : ServerState) (l : String) (e : LogEvent) :
    (appendLog st l e).botSettings = st.botSettings := rfl

/-- stopTradingBot changes only the timers and the activeBots entry, and always
leaves no activeBots entry. -/
theorem stopTradingBot_frame (st : ServerState) :
    (stopTradingBot st).apiKey = st.apiKey ∧
    (stopTradingBot st).botSettings = st.botSettings ∧
    (stopTradingBot st).nextTimerId = st.nextTimerId ∧
    (stopTradingBot st).logs = st.logs ∧
    (stopTradingBot st).activeBot = none := by
  cases h : st.activeBot <;> simp [stopTradingBot, h]

/-- Under the invariant, stopping clears every live timer. -/
theorem stopTradingBot_clears (st : ServerState) (h : schedulerInvariant st) :
    (stopTradingBot st).liveTimers = [] := by
  obtain ⟨h1, _⟩ := h
  cases ha : st.activeBot with
  | none =>
    rw [ha] at h1
    simp [stopTradingBot, ha, h1]
  | some i =>
    rw [ha] at h1
    rcases ht : st.liveTimers with _ | ⟨t, rest⟩
    · simp [stopTradingBot, ha, ht]
    · rw [ht] at h1
      simp only [List.map_cons] at h1
      have hid : t.id = i := (List.cons.injEq _ _ _ _).mp h1 |>.1
      have hrest : rest = [] := by
        have := ((List.cons.injEq _ _ _ _).mp h1).2
        exact List.map_eq_nil_iff.mp this
      simp [stopTradingBot, ha, ht, hrest, hid]

/-- stopTradingBot preserves the scheduler invariant. -/
theorem schedulerInvariant_stop (st : ServerState) (h : schedulerInvariant st) :
    schedulerInvariant (stopTradingBot st) := by
  have hc := stopTradingBot_clears st h
  have ha := (stopTradingBot_frame st).2.2.2.2
  constructor
  · rw [ha, hc]
  · intro t ht
    rw [hc] at ht
    simp at ht

/-- startTradingBot with no key, no settings, or inactive settings only stops
the previous bot. -/
theorem startTradingBot_not_started (st : ServerState)
    (h : st.apiKey = none ∨ st.botSettings = none ∨
      ∃ s, st.botSettings = some s ∧ s.isActive = false) :
    startTradingBot st = (stopTradingBot st, Effects.empty) := by
  obtain ⟨hK, hB, _, _, _⟩ := stopTradingBot_frame st
  simp only [startTradingBot]
  split
  next k2 s2 heq1 heq2 =>
    rcases h with h | h | ⟨s, hs, hsa⟩
    · rw [hK, h] at heq1
      exact absurd heq1 (by simp)
    · rw [hB, h] at heq2
      exact absurd heq2 (by simp)
    · rw [hB, hs] at heq2
      have : s2 = s := by injection heq2 with h2; exact h2.symm
      subst this
      rw [if_neg (by simp [hsa])]
  next => rfl

/-- A successful start installs exactly one fresh timer with the
frequency-derived period and records it in activeBots. -/
theorem startTradingBot_started (st : ServerState) (k : ApiKey) (s : BotSettings)
    (hk : st.apiKey = some k) (hs : st.botSettings = some s) (ha : s.isActive = true) :
    (startTradingBot st).fst.liveTimers = (stopTradingBot st).liveTimers ++
      [⟨st.nextTimerId, computeUpdateInterval s.tradingFrequency⟩] ∧
    (startTradingBot st).fst.activeBot = some st.nextTimerId ∧
    (startTradingBot st).fst.nextTimerId = st.nextTimerId + 1 ∧
    (startTradingBot st).fst.apiKey = st.apiKey ∧
    (startTradingBot st).fst.botSettings = st.botSettings ∧
    (startTradingBot st).snd.broadcasts = [.botStatus true (some s.strategy)] := by
  obtain ⟨hK, hB, hN, _, _⟩ := stopTradingBot_frame st
  simp only [startTradingBot]
  split
  next k2 s2 heq1 heq2 =>
    have hs2 : s2 = s := by
      rw [hB, hs] at heq2
      injection heq2 with h2
      exact h2.symm
    subst hs2
    rw [if_pos ha]
    by_cases hrl : (s2.strategy == "reinforcement") = true <;>
      simp [hrl, hN, hK, hB, hk, hs]
  next hno =>
    exfalso
    rw [hK, hB] at *
    exact hno k s (by rw [hK, hk]) (by rw [hB, hs])

/-- startTradingBot never changes the stored key or settings. -/
theorem startTradingBot_frame (st : ServerState) :
    (startTradingBot st).fst.apiKey = st.apiKey ∧
    (startTradingBot st).fst.botSettings = st.botSettings := by
  obtain ⟨hK, hB, _, _, _⟩ := stopTradingBot_frame st
  simp only [startTradingBot]
  split
  next k2 s2 heq1 heq2 =>
    split
    · by_cases hrl : (s2.strategy == "reinforcement") = true <;> simp [hrl, hK, hB]
    · exact ⟨hK, hB⟩
  next => exact ⟨hK, hB⟩

/-- startTradingBot preserves the scheduler invariant. -/
theorem schedulerInvariant_start (st : ServerState) (h : schedulerInvariant st) :
    schedulerInvariant (startTradingBot st).fst := by
  rcases hk : st.apiKey with _ | k
  · rw [startTradingBot_not_started st (Or.inl hk)]
    exact schedulerInvariant_stop st h
  · rcases hb : st.botSettings with _ | s
    · rw [startTradingBot_not_started st (Or.inr (Or.inl hb))]
      exact schedulerInvariant_stop st h
    · cases ha : s.isActive with
      | false =>
        rw [startTradingBot_not_started st (Or.inr (Or.inr ⟨s, hb, ha⟩))]
        exact schedulerInvariant_stop st h
      | true =>
        obtain ⟨hl, hab, hn, _, _, _⟩ := startTradingBot_started st k s hk hb ha
        have hc := stopTradingBot_clears st h
        constructor
        · rw [hab, hl, hc]
          simp
        · intro t ht
          rw [hl, hc, hn] at *
          simp at ht
          subst ht
          simp

/-- The invariant bounds the number of live timers by one. -/
theorem schedulerInvariant_len (st : ServerState) (h : schedulerInvariant st) :
    st.liveTimers.length ≤ 1 := by
  obtain ⟨h1, _⟩ := h
  cases ha : st.activeBot with
  | none =>
    rw [ha] at h1
    simp [h1]
  | some i =>
    rw [ha] at h1
    have := congrArg List.length h1
    simp at this
    simp [this]

/-- Under the invariant the tracked timer id is below the allocation counter. -/
theorem schedulerInvariant_id_lt (st : ServerState) (h : schedulerInvariant st)
    (i : ℕ) (ha : st.activeBot = some i) : i < st.nextTimerId := by
  obtain ⟨h1, h2⟩ := h
  rw [ha] at h1
  have : i ∈ st.liveTimers.map TimerHandle.id := by rw [h1]; simp
  obtain ⟨t, ht, hti⟩ := List.mem_map.mp this
  rw [← hti]
  exact h2 t ht

/-- C3: starting preserves the at-most-one-handle invariant (as does
stopping), starting twice leaves at most one - and, when a key exists and the
settings are active, exactly one - live timer, and any previously tracked
handle is gone after a start. -/
theorem spec_c3 (st : ServerState) (h : schedulerInvariant st) :
    schedulerInvariant (startTradingBot st).fst ∧
    schedulerInvariant (stopTradingBot st) ∧
    (startTradingBot (startTradingBot st).fst).fst.liveTimers.length ≤ 1 ∧
    (∀ k s, st.apiKey = some k → st.botSettings = some s → s.isActive = true →
      (startTradingBot (startTradingBot st).fst).fst.liveTimers.length = 1) ∧
    (∀ i, st.activeBot = some i →
      ∀ t ∈ (startTradingBot st).fst.liveTimers, t.id ≠ i) := by
  have h1 := schedulerInvariant_start st h
  refine ⟨h1, schedulerInvariant_stop st h, ?_, ?_, ?_⟩
  · exact schedulerInvariant_len _ (schedulerInvariant_start _ h1)
  · intro k s hk hs ha
    obtain ⟨hK1, hB1⟩ := startTradingBot_frame st
    obtain ⟨hl, _, _, _, _, _⟩ := startTradingBot_started (startTradingBot st).fst k s
      (by rw [hK1, hk]) (by rw [hB1, hs]) ha
    rw [hl, stopTradingBot_clears _ h1]
    simp
  · intro i hi t ht
    rcases hk : st.apiKey with _ | k
    · rw [startTradingBot_not_started st (Or.inl hk)] at ht
      have hc := stopTradingBot_clears st h
      simp only [] at ht
      rw [hc] at ht
      simp at ht
    · rcases hb : st.botSettings with _ | s
      · rw [startTradingBot_not_started st (Or.inr (Or.inl hb))] at ht
        have hc := stopTradingBot_clears st h
        simp only [] at ht
        rw [hc] at ht
        simp at ht
      · cases ha : s.isActive with
        | false =>
          rw [startTradingBot_not_started st (Or.inr (Or.inr ⟨s, hb, ha⟩))] at ht
          have hc := stopTradingBot_clears st h
          simp only [] at ht
          rw [hc] at ht
          simp at ht
        | true =>
          obtain ⟨hl, _, _, _, _, _⟩ := startTradingBot_started st k s hk hb ha
          rw [hl, stopTradingBot_clears st h] at ht
          simp at ht
          rw [ht]
          intro hcon
          have hcon2 : st.nextTimerId = i := hcon
          have := schedulerInvariant_id_lt st h i hi
          rw [hcon2] at this
          exact absurd this (lt_irrefl _)

/-- C8: the scheduler period is a fixed lookup on tradingFrequency (low 300000,
medium 60000, high 10000, default 60000 ms), and a successful start installs a
timer with exactly that period. -/
theorem spec_c8 :
    computeUpdateInterval "low" = 300000 ∧
    computeUpdateInterval "medium" = 60000 ∧
    computeUpdateInterval "high" = 10000 ∧
    (∀ f, f ≠ "low" → f ≠ "medium" → f ≠ "high" → computeUpdateInterval f = 60000) ∧
    (∀ st (k : ApiKey) (s : BotSettings), st.apiKey = some k → st.botSettings = some s →
      s.isActive = true →
      (startTradingBot st).fst.activeBot = some st.nextTimerId ∧
      TimerHandle.mk st.nextTimerId (computeUpdateInterval s.tradingFrequency) ∈
        (startTradingBot st).fst.liveTimers) := by
  refine ⟨rfl, rfl, rfl, ?_, ?_⟩
  · intro f h1 h2 h3
    simp [computeUpdateInterval, h1, h2, h3]
  · intro st k s hk hs ha
    obtain ⟨hl, hab, _, _, _, _⟩ := startTradingBot_started st k s hk hs ha
    refine ⟨hab, ?_⟩
    rw [hl]
    simp

/-- C6: a startBot message followed by a stopBot message leaves isActive false,
no live timers, no activeBots entry, and broadcasts the inactive botStatus. -/
theorem spec_c6 (st : ServerState) (s : BotSettings) (hinv : schedulerInvariant st)
    (hs : st.botSettings = some s) :
    (handleStopBotMessage (handleStartBotMessage st).fst).fst.botSettings =
      some { s with isActive := false } ∧
    (handleStopBotMessage (handleStartBotMessage st).fst).fst.liveTimers = [] ∧
    (handleStopBotMessage (handleStartBotMessage st).fst).fst.activeBot = none ∧
    BroadcastMsg.botStatus false none ∈
      (handleStopBotMessage (handleStartBotMessage st).fst).snd.broadcasts := by
  simp only [handleStartBotMessage, hs]
  set st1 : ServerState := { st with botSettings := some { s with isActive := true } } with hst1
  have hinv1 : schedulerInvariant st1 := hinv
  have hA : (startTradingBot st1).fst.botSettings = some { s with isActive := true } :=
    (startTradingBot_frame st1).2
  have hinvA : schedulerInvariant (startTradingBot st1).fst := schedulerInvariant_start st1 hinv1
  simp only [handleStopBotMessage, hA]
  set stA : ServerState := (startTradingBot st1).fst with hstA
  set st2 : ServerState :=
    { stA with botSettings := some { s with isActive := false } } with hst2
  have hinv2 : schedulerInvariant st2 := hinvA
  have hclear : (stopTradingBot st2).liveTimers = [] := stopTradingBot_clears st2 hinv2
  have hnone : (stopTradingBot st2).activeBot = none := (stopTradingBot_frame st2).2.2.2.2
  have hbs2 : (stopTradingBot st2).botSettings = some { s with isActive := false } :=
    (stopTradingBot_frame st2).2.1
  refine ⟨?_, ?_, ?_, ?_⟩
  · simpa using hbs2
  · simpa using hclear
  · simpa using hnone
  · simp

def c3State : ServerState :=
  { marketDataCache := [], positions := [], trades := [], logs := [], metrics := none,
    botSettings := some ⟨true, "momentum", 5, "low"⟩,
    apiKey := some ⟨"KEY", "SECRET", "paper"⟩,
    rl := ⟨[], [], [], false, false, false, false, 100, 3 / 10⟩,
    activeBot := none, liveTimers := [], nextTimerId := 0 }

/-- C3 witness: double start on a concrete ready state leaves one timer. -/
theorem spec_c3_witness :
    (startTradingBot (startTradingBot c3State).fst).fst.liveTimers.length = 1 :=
  (spec_c3 c3State ⟨rfl, by intro t ht; simp [c3State] at ht⟩).2.2.2.1 ⟨"KEY", "SECRET", "paper"⟩
    ⟨true, "momentum", 5, "low"⟩ rfl rfl rfl

def c6State : ServerState :=
  { marketDataCache := [], positions := [], trades := [], logs := [], metrics := none,
    botSettings := some ⟨false, "momentum", 5, "medium"⟩,
    apiKey := some ⟨"KEY", "SECRET", "paper"⟩,
    rl := ⟨[], [], [], false, false, false, false, 100, 3 / 10⟩,
    activeBot := none, liveTimers := [], nextTimerId := 0 }

/-- C6 witness: the round trip on a concrete state. -/
theorem spec_c6_witness :
    (handleStopBotMessage (handleStartBotMessage c6State).fst).fst.liveTimers = [] ∧
    (handleStopBotMessage (handleStartBotMessage c6State).fst).fst.botSettings =
      some ⟨false, "momentum", 5, "medium"⟩ ∧
    BroadcastMsg.botStatus false none ∈
      (handleStopBotMessage (handleStartBotMessage c6State).fst).snd.broadcasts := by
  have h := spec_c6 c6State ⟨false, "momentum", 5, "medium"⟩ ⟨rfl, by intro t ht; simp [c6State] at ht⟩ rfl
  exact ⟨h.2.1, h.1, h.2.2.2⟩

def c8State : ServerState :=
  { marketDataCache := [], positions := [], trades := [], logs := [], metrics := none,
    botSettings := some ⟨true, "momentum", 5, "high"⟩,
    apiKey := some ⟨"KEY", "SECRET", "paper"⟩,
    rl := ⟨[], [], [], false, false, false, false, 100, 3 / 10⟩,
    activeBot := none, liveTimers := [], nextTimerId := 0 }

/-- C8 witness: unknown frequency falls back to 60000 ms, and a concrete start
with high frequency installs a 10000 ms timer. -/
theorem spec_c8_witness :
    computeUpdateInterval "turbo" = 60000 ∧
    (startTradingBot c8State).fst.activeBot = some 0 ∧
    TimerHandle.mk 0 10000 ∈ (startTradingBot c8State).fst.liveTimers := by
  have h4 := spec_c8.2.2.2.1 "turbo" (by decide) (by decide) (by decide)
  have h5 := spec_c8.2.2.2.2 c8State ⟨"KEY", "SECRET", "paper"⟩
    ⟨true, "momentum", 5, "high"⟩ rfl rfl rfl
  exact ⟨h4, h5.1, h5.2⟩


def c4Tick (price : ℚ) : MarketData := ⟨"BTCUSD", price, 0, 0, 0⟩

def c4Env : BrokerEnv := ⟨Except.ok ⟨25000, 25000⟩, fun _ => Except.error "down"⟩

def c4State0 : ServerState :=
  { marketDataCache := [], positions := [⟨1, "BTCUSD", 1, 100, 100, 100, 0, 0⟩],
    trades := [], logs := [], metrics := none, botSettings := none, apiKey := none,
    rl := ⟨[], [], [], false, false, false, false, 100, 3 / 10⟩,
    activeBot := none, liveTimers := [], nextTimerId := 0 }

def c4Step (st : ServerState) (price : ℚ) : ServerState :=
  (handleAlpacaWebsocketMessage c4Env (fun _ => 0) 0 (fun _ => 0) st
    (.mock (c4Tick price))).fst

def c4States : List ServerState :=
  [c4Step c4State0 100, c4Step (c4Step c4State0 100) 105,
   c4Step (c4Step (c4Step c4State0 100) 105) 95]

def c4PlSeq : List ℚ :=
  c4States.map (fun s => ((s.positions.head?).map Position.unrealizedPl).getD 1)

def c4PercSeq : List ℚ :=
  c4States.map (fun s => ((s.positions.head?).map Position.unrealizedPlPerc).getD 1)

/-- C4: step-3 reconciliation stores the merged row whose fields satisfy
marketValue = qty * currentPrice, unrealizedPl = qty * (currentPrice -
entryPrice) and unrealizedPlPerc = (currentPrice - entryPrice) / entryPrice *
100 with qty and entryPrice untouched, and on the BTCUSD scenario with qty 1,
entry 100 and tick prices 100, 105, 95 the stored sequences are 0, 5, -5 for
both unrealizedPl and unrealizedPlPerc. -/
theorem spec_c4 :
    (∀ (position : Position) (md : MarketData),
      (updatedPositionOf position md).qty = position.qty ∧
      (updatedPositionOf position md).entryPrice = position.entryPrice ∧
      (updatedPositionOf position md).currentPrice = md.price ∧
      (updatedPositionOf position md).marketValue =
        (updatedPositionOf position md).qty * (updatedPositionOf position md).currentPrice ∧
      (updatedPositionOf position md).unrealizedPl =
        (updatedPositionOf position md).qty *
          ((updatedPositionOf position md).currentPrice -
            (updatedPositionOf position md).entryPrice) ∧
      (updatedPositionOf position md).unrealizedPlPerc =
        ((updatedPositionOf position md).currentPrice -
          (updatedPositionOf position md).entryPrice) /
          (updatedPositionOf position md).entryPrice * 100) ∧
    (∀ (env : BrokerEnv) (sqrtFn : ℚ → ℚ) (now : ℕ) (agentPredict : String → ℚ)
        (st : ServerState) (message : AlpacaMessage) (md : MarketData) (p : Position),
      parsedMarketData message = some md →
      st.positions.find? (fun q => q.symbol == md.symbol) = some p →
      updatedPositionOf p md ∈
        (handleAlpacaWebsocketMessage env sqrtFn now agentPredict st message).fst.positions) ∧
    c4PlSeq = [0, 5, -5] ∧ c4PercSeq = [0, 5, -5] := by
  refine ⟨?_, ?_, ?_, ?_⟩
  · intro position md
    exact ⟨rfl, rfl, rfl, rfl, rfl, rfl⟩
  · intro env sqrtFn now agentPredict st message md p hm hf
    simp only [handleAlpacaWebsocketMessage, hm]
    have hfound := reconcileStep_found (isTestModeOf st.apiKey) md
      { st with marketDataCache := cacheSet st.marketDataCache md } p hf
    have hmem : p ∈ st.positions := List.mem_of_find?_eq_some hf
    have hgoal : updatedPositionOf p md ∈
        (reconcileStep (isTestModeOf st.apiKey) md
          { st with marketDataCache := cacheSet st.marketDataCache md }).fst.positions := by
      rw [hfound]
      exact List.mem_map.mpr ⟨p, hmem, by simp⟩
    rcases handleParsed_cases env sqrtFn now agentPredict (isTestModeOf st.apiKey) st md with
      ⟨_, heq⟩ | ⟨settings, _, _, heq⟩
    · rw [heq]
      exact hgoal
    · rw [heq, tickActiveSteps_eq]
      set R := reconcileStep (isTestModeOf st.apiKey) md
        { st with marketDataCache := cacheSet st.marketDataCache md } with hR
      set S := signalStep sqrtFn now agentPredict (isTestModeOf st.apiKey) settings md
        (historicalDataFor R.fst.marketDataCache md.symbol) R.fst with hS
      obtain ⟨_, _, _, sP, _, _, _, _⟩ :=
        signalStep_shape sqrtFn now agentPredict (isTestModeOf st.apiKey) settings md
          (historicalDataFor R.fst.marketDataCache md.symbol) R.fst
      obtain ⟨_, _, oP, _⟩ := orderDecisionStep_shape env settings S.snd.snd S.fst
      show updatedPositionOf p md ∈ (orderDecisionStep env settings S.snd.snd S.fst).fst.positions
      rw [oP, sP]
      exact hgoal
  · norm_num [c4PlSeq, c4States, c4Step, c4State0, c4Tick, c4Env,
      handleAlpacaWebsocketMessage, parsedMarketData, handleParsed, isTestModeOf,
      cacheSet, assocSet, reconcileStep, updatedPositionOf, historicalDataFor,
      Effects.empty]
  · norm_num [c4PercSeq, c4States, c4Step, c4State0, c4Tick, c4Env,
      handleAlpacaWebsocketMessage, parsedMarketData, handleParsed, isTestModeOf,
      cacheSet, assocSet, reconcileStep, updatedPositionOf, historicalDataFor,
      Effects.empty]

/-- C4 witness: the merged row for a concrete position and tick is stored by
the handler. -/
theorem spec_c4_witness :
    (updatedPositionOf ⟨1, "BTCUSD", 1, 100, 100, 100, 0, 0⟩ (c4Tick 105)).qty = 1 ∧
    updatedPositionOf ⟨1, "BTCUSD", 1, 100, 100, 100, 0, 0⟩ (c4Tick 105) ∈
      (handleAlpacaWebsocketMessage c4Env (fun _ => 0) 0 (fun _ => 0) c4State0
        (.mock (c4Tick 105))).fst.positions := by
  have hb := spec_c4.2.1 c4Env (fun _ => 0) 0 (fun _ => 0) c4State0 (.mock (c4Tick 105))
    (c4Tick 105) ⟨1, "BTCUSD", 1, 100, 100, 100, 0, 0⟩ rfl (by decide)
  exact ⟨(spec_c4.1 ⟨1, "BTCUSD", 1, 100, 100, 100, 0, 0⟩ (c4Tick 105)).1, hb⟩


/-- With unique keys, Map.set followed by filtering on the key yields exactly
the new entry. -/
theorem filter_assocSet (l : List (String × MarketData)) (k : String) (v : MarketData)
    (h : (l.map Prod.fst).Nodup) :
    (assocSet l k v).filter (fun e => e.fst == k) = [(k, v)] := by
  induction l with
  | nil => simp [assocSet]
  | cons e rest ih =>
    simp only [List.map_cons, List.nodup_cons] at h
    obtain ⟨he, hrest⟩ := h
    by_cases hek : e.fst = k
    · have hothers : ∀ z ∈ rest, ¬ (z.fst == k) = true := by
        intro z hz
        simp only [beq_iff_eq]
        intro hzk
        apply he
        rw [hek, ← hzk]
        exact List.mem_map_of_mem Prod.fst hz
      have hany : (e :: rest).any (fun z => z.fst == k) = true := by
        simp [List.any_cons, hek]
      have hmap : rest.map (fun z => if z.fst == k then (z.fst, v) else z) = rest := by
        have hcongr : ∀ z ∈ rest, (if z.fst == k then ((z.fst : String), v) else z) = id z := by
          intro z hz
          rw [if_neg (hothers z hz)]
          rfl
        rw [List.map_congr_left hcongr, List.map_id]
      have hfr : rest.filter (fun z => z.fst == k) = [] :=
        List.filter_eq_nil_iff.mpr hothers
      have hassoc : assocSet (e :: rest) k v = (e.fst, v) :: rest := by
        unfold assocSet
        rw [if_pos hany, List.map_cons, hmap,
          if_pos (show (e.fst == k) = true by simp [hek])]
      rw [hassoc, List.filter_cons,
        if_pos (show (((e.fst : String), v).fst == k) = true by simp [hek]), hfr]
      simp [hek]
    · have hpe : (e.fst == k) = false := by simp [hek]
      by_cases hany : rest.any (fun z => z.fst == k) = true
      · have hset : assocSet rest k v =
            rest.map (fun z => if z.fst == k then (z.fst, v) else z) := by
          simp [assocSet, hany]
        have ihv := ih hrest
        rw [hset] at ihv
        have hanyc : (e :: rest).any (fun z => z.fst == k) = true := by
          simp [List.any_cons, hany]
        have hassoc : assocSet (e :: rest) k v =
            (if e.fst == k then ((e.fst : String), v) else e) ::
              rest.map (fun z => if z.fst == k then (z.fst, v) else z) := by
          unfold assocSet
          rw [if_pos hanyc, List.map_cons]
        rw [hassoc, if_neg (by simp [hek]), List.filter_cons, if_neg (by simp [hpe])]
        exact ihv
      · have hanyb : rest.any (fun z => z.fst == k) = false := by
          rw [← Bool.not_eq_true]
          exact hany
        have hanyc : (e :: rest).any (fun z => z.fst == k) = false := by
          simp [List.any_cons, hpe, hanyb]
        have hfr : rest.filter (fun z => z.fst == k) = [] := by
          rw [List.filter_eq_nil_iff]
          intro z hz
          exact List.any_eq_false.mp hanyb z hz
        have h1 : (e :: rest).filter (fun z => z.fst == k) = [] := by
          rw [List.filter_cons, if_neg (by simp [hpe]), hfr]
        have hassoc : assocSet (e :: rest) k v = (e :: rest) ++ [(k, v)] := by
          unfold assocSet
          rw [if_neg (by simp [hanyc])]
        rw [hassoc, List.filter_append, h1]
        simp

/-- The historical window built from the latest-value cache right after the
cache update holds exactly the current tick. -/
theorem historicalDataFor_cacheSet (cache : List (String × MarketData)) (md : MarketData)
    (h : (cache.map Prod.fst).Nodup) :
    historicalDataFor (cacheSet cache md) md.symbol = [md] := by
  unfold historicalDataFor cacheSet
  rw [filter_assocSet cache md.symbol md h]
  rfl

/-- C10: with unique cache keys the strategy window is exactly the current
tick, so the active mean-reversion bot (14-point lookback) always broadcasts
the hold/0 sentinel and the order-decision step never fires. -/
theorem spec_c10 (env : BrokerEnv) (sqrtFn : ℚ → ℚ) (now : ℕ)
    (agentPredict : String → ℚ) (st : ServerState) (message : AlpacaMessage)
    (md : MarketData) (settings : BotSettings)
    (hm : parsedMarketData message = some md)
    (hnd : (st.marketDataCache.map Prod.fst).Nodup)
    (hs : st.botSettings = some settings)
    (hstrat : settings.strategy = "mean_reversion")
    (hact : settings.isActive = true) :
    historicalDataFor (cacheSet st.marketDataCache md) md.symbol = [md] ∧
    BroadcastMsg.strategySignal (holdSignal md.symbol now) ∈
      (handleAlpacaWebsocketMessage env sqrtFn now agentPredict st message).snd.broadcasts ∧
    (∀ sig, BroadcastMsg.strategySignal sig ∈
        (handleAlpacaWebsocketMessage env sqrtFn now agentPredict st message).snd.broadcasts →
      sig = holdSignal md.symbol now) ∧
    (handleAlpacaWebsocketMessage env sqrtFn now agentPredict st message).snd.submitOrderCalls = [] ∧
    (handleAlpacaWebsocketMessage env sqrtFn now agentPredict st message).snd.orderRequestsBuilt = [] ∧
    (handleAlpacaWebsocketMessage env sqrtFn now agentPredict st message).fst.trades = st.trades := by
  have hhist := historicalDataFor_cacheSet st.marketDataCache md hnd
  refine ⟨hhist, ?_⟩
  simp only [handleAlpacaWebsocketMessage, hm]
  rcases handleParsed_cases env sqrtFn now agentPredict (isTestModeOf st.apiKey) st md with
    ⟨hcase, _⟩ | ⟨settings2, hbs2, hact2, heq⟩
  · exfalso
    rcases hcase with h | ⟨s2, hs2, hs2a⟩
    · rw [hs] at h
      exact absurd h (by simp)
    · rw [hs] at hs2
      have : s2 = settings := by injection hs2 with h2; exact h2.symm
      subst this
      rw [hact] at hs2a
      exact absurd hs2a (by simp)
  · have hset2 : settings2 = settings := by
      rw [hs] at hbs2
      injection hbs2 with h2
      exact h2.symm
    have hstrat2 : settings2.strategy = "mean_reversion" := by rw [hset2, hstrat]
    rw [heq, tickActiveSteps_eq]
    set R := reconcileStep (isTestModeOf st.apiKey) md
      { st with marketDataCache := cacheSet st.marketDataCache md } with hR
    obtain ⟨r1a, r1b, r1t, _, _, _, r1c, _, r1no⟩ :=
      reconcileStep_shape (isTestModeOf st.apiKey) md
        { st with marketDataCache := cacheSet st.marketDataCache md }
    rw [← hR] at r1a r1b r1t r1c r1no
    set S := signalStep sqrtFn now agentPredict (isTestModeOf st.apiKey) settings2 md
      (historicalDataFor R.fst.marketDataCache md.symbol) R.fst with hS
    have hRc : R.fst.marketDataCache = cacheSet st.marketDataCache md := r1c
    have hlen : (historicalDataFor R.fst.marketDataCache md.symbol).length < 14 := by
      rw [hRc, hhist]
      simp
    have hsig : S.snd.snd = holdSignal md.symbol now :=
      signalStep_meanReversion_insufficient sqrtFn now agentPredict (isTestModeOf st.apiKey)
        settings2 md (historicalDataFor R.fst.marketDataCache md.symbol) R.fst hstrat2 hlen
    have hclosed : orderDecisionStep env settings2 S.snd.snd S.fst = (S.fst, Effects.empty) :=
      orderDecisionStep_gate_closed env settings2 S.snd.snd S.fst (Or.inl (by rw [hsig]; rfl))
    obtain ⟨_, sT, _, _, _, _, _, _⟩ :=
      signalStep_shape sqrtFn now agentPredict (isTestModeOf st.apiKey) settings2 md
        (historicalDataFor R.fst.marketDataCache md.symbol) R.fst
    rw [← hS] at sT
    rw [hclosed]
    refine ⟨?_, ?_, ?_, ?_, ?_⟩
    · rw [hsig]
      simp [Effects.empty]
    · intro sig hmem
      simp only [Effects.append_broadcasts, List.mem_append] at hmem
      rcases hmem with (h | h) | h | h
      · simp at h
      · exact absurd h (r1no sig)
      · rw [← hsig]
        simpa using h
      · simp [Effects.empty] at h
    · simp [r1a, Effects.empty]
    · simp [r1b, Effects.empty]
    · show S.fst.trades = st.trades
      rw [sT, r1t]

def c10Tick : MarketData := ⟨"BTCUSD", 100, 0, 0, 0⟩

def c10State : ServerState :=
  { marketDataCache := [("ETHUSD", ⟨"ETHUSD", 2000, 0, 0, 0⟩)],
    positions := [], trades := [], logs := [], metrics := none,
    botSettings := some ⟨true, "mean_reversion", 5, "medium"⟩,
    apiKey := some ⟨"KEY", "SECRET", "paper"⟩,
    rl := ⟨[], [], [], false, false, false, false, 100, 3 / 10⟩,
    activeBot := none, liveTimers := [], nextTimerId := 0 }

def c10Env : BrokerEnv := ⟨Except.ok ⟨25000, 25000⟩, fun _ => Except.ok ⟨"BTCUSD", .buy, 1, "market", "filled"⟩⟩

/-- C10 witness: a concrete active mean-reversion state broadcasts hold/0 and
submits nothing, even with an always-accepting broker. -/
theorem spec_c10_witness :
    historicalDataFor (cacheSet c10State.marketDataCache c10Tick) "BTCUSD" = [c10Tick] ∧
    (handleAlpacaWebsocketMessage c10Env (fun _ => 0) 0 (fun _ => 0) c10State
      (.mock c10Tick)).snd.submitOrderCalls = [] ∧
    BroadcastMsg.strategySignal (holdSignal "BTCUSD" 0) ∈
      (handleAlpacaWebsocketMessage c10Env (fun _ => 0) 0 (fun _ => 0) c10State
        (.mock c10Tick)).snd.broadcasts := by
  have h := spec_c10 c10Env (fun _ => 0) 0 (fun _ => 0) c10State (.mock c10Tick) c10Tick
    ⟨true, "mean_reversion", 5, "medium"⟩ rfl (by decide) rfl rfl rfl
  exact ⟨h.1, h.2.2.2.1, h.2.1⟩

end AlpacaBot
